import Mathlib

/-!
Shallow embedding of the rgx core module (src/core/mod.rs), a resource and
command abstraction layer over an explicit GPU device API.

Machine integers are modelled as Nat. The source stores lengths as usize
(unbounded here, since usize overflow is unreachable from representable
inputs) and applies explicit `as u32` truncating casts in several places;
those casts are modelled by reduction modulo u32size = 2^32 exactly where
the source performs them. Assertion failures (fatal panics) and backend
errors are both modelled as none.
-/

set_option maxHeartbeats 1000000

/-- The modulus of the Rust u32 type: 2^32. The source casts usize values
to u32 with the `as` operator, which truncates to this modulus. -/
def u32size : Nat := 4294967296

/-- An RGBA color with 8-bit channels (struct Rgba8, mod.rs lines 17-24).
Channel values produced by the embedded operations lie below 256. -/
structure Rgba8 where
  r : Nat
  g : Nat
  b : Nat
  a : Nat
deriving DecidableEq, Repr

/-- A BGRA color, used when dealing with framebuffers
(struct Bgra8, mod.rs lines 112-119). -/
structure Bgra8 where
  b : Nat
  g : Nat
  r : Nat
  a : Nat
deriving DecidableEq, Repr

/-- impl From Rgba8 for Bgra8 (mod.rs lines 127-136): channelwise copy. -/
def Bgra8.fromRgba8 (rgba : Rgba8) : Bgra8 :=
  { b := rgba.b, g := rgba.g, r := rgba.r, a := rgba.a }

/-- impl Into Rgba8 for Bgra8 (mod.rs lines 138-147): channelwise copy. -/
def Bgra8.intoRgba8 (c : Bgra8) : Rgba8 :=
  { r := c.r, g := c.g, b := c.b, a := c.a }

/-- A 2D point (math::Point2), used by Rect::contains. -/
structure Point2 (α : Type) where
  x : α
  y : α
deriving DecidableEq, Repr

/-- An axis-aligned rectangle given by two corner points
(struct Rect, mod.rs lines 153-159). -/
structure Rect (α : Type) where
  x1 : α
  y1 : α
  x2 : α
  y2 : α
deriving DecidableEq, Repr

/-- Rect::width (mod.rs lines 235-245): absolute difference of the
x coordinates, computed as in the source by negating a negative difference. -/
def Rect.width {α : Type} [LinearOrder α] [Sub α] [Neg α] [Zero α]
    (r : Rect α) : α :=
  let w := r.x2 - r.x1
  if w < 0 then -w else w

/-- Rect::height (mod.rs lines 257-267): absolute difference of the
y coordinates. -/
def Rect.height {α : Type} [LinearOrder α] [Sub α] [Neg α] [Zero α]
    (r : Rect α) : α :=
  let h := r.y2 - r.y1
  if h < 0 then -h else h

/-- Rect::contains (mod.rs lines 354-359): the point is within the closed
coordinate intervals of the rectangle. -/
def Rect.contains {α : Type} [LinearOrder α] (r : Rect α) (p : Point2 α) : Prop :=
  p.x ≥ r.x1 ∧ p.x ≤ r.x2 ∧ p.y ≥ r.y1 ∧ p.y ≤ r.y2

instance {α : Type} [LinearOrder α] (r : Rect α) (p : Point2 α) :
    Decidable (r.contains p) := by
  unfold Rect.contains; infer_instance

/-- Rect::normalized (mod.rs lines 381-391): order each coordinate pair. -/
def Rect.normalized {α : Type} [LinearOrder α] (r : Rect α) : Rect α :=
  Rect.mk (min r.x1 r.x2) (min r.y1 r.y2) (max r.x1 r.x2) (max r.y1 r.y2)

/-- Rect::clamped (mod.rs lines 411-421): clamp each coordinate against the
corresponding bound. -/
def Rect.clamped {α : Type} [LinearOrder α] (r : Rect α) (bounds : Rect α) :
    Rect α :=
  Rect.mk (max r.x1 bounds.x1) (max r.y1 bounds.y1)
    (min r.x2 bounds.x2) (min r.y2 bounds.y2)

/-- A GPU texture of fixed size (struct Texture, mod.rs lines 743-750).
The opaque wgpu texture and view handles are represented by an id. -/
structure Texture where
  w : Nat
  h : Nat
  view : Nat
deriving DecidableEq, Repr

/-- A framebuffer wraps a texture usable as render target
(struct Framebuffer, mod.rs lines 673-675). -/
structure Framebuffer where
  texture : Texture
deriving DecidableEq, Repr

/-- The buffer-to-texture copy recorded by Texture::copy
(mod.rs lines 881-908): row pitch, image height, and copy extent. -/
structure TexCopyOp where
  rowPitch : Nat
  imageHeight : Nat
  extentW : Nat
  extentH : Nat
deriving DecidableEq, Repr

/-- Texture::fill (mod.rs lines 780-805). The source asserts
texels.len() as u32 == texture.w * texture.h * 4 (the usize length is
truncated to u32 by the cast; the right side is u32 arithmetic, wrapping
modulo 2^32), then records a full-extent copy with row pitch 4*w and
image height h. Assertion failure is modelled as none. -/
def Texture.fill (texture : Texture) (texels : List Nat) : Option TexCopyOp :=
  if texels.length % u32size = (texture.w * texture.h * 4) % u32size then
    some ⟨4 * texture.w, texture.h, texture.w, texture.h⟩
  else none

/-- Texture::transfer (mod.rs lines 807-838). The source asserts
(texels.len() as u32 / 4) == width * height (truncating cast, then
truncating division by 4) and transfer_w * transfer_h <= texture.w *
texture.h (u32 arithmetic), then records a copy with row pitch 4*width,
image height height, and extent transfer_w by transfer_h. -/
def Texture.transfer (texture : Texture) (texels : List Nat)
    (width height transferW transferH : Nat) : Option TexCopyOp :=
  if (texels.length % u32size) / 4 = (width * height) % u32size ∧
      (transferW * transferH) % u32size ≤ (texture.w * texture.h) % u32size then
    some ⟨4 * width, height, transferW, transferH⟩
  else none

/-- The texture-to-texture copy recorded by Texture::blit on success:
the two origins and the copied extent. -/
structure BlitOp (α : Type) where
  srcOrigin : α × α
  dstOrigin : α × α
  extent : α × α
deriving DecidableEq, Repr

/-- Texture::blit (mod.rs lines 840-879). The source asserts that source
and destination rectangles have equal width and equal height, then records
a texture-to-texture copy from the source origin to the destination origin
with the source extent. -/
def Texture.blit {α : Type} [LinearOrder α] [Sub α] [Neg α] [Zero α]
    (_t : Texture) (src dst : Rect α) : Option (BlitOp α) :=
  if src.width = dst.width ∧ src.height = dst.height then
    some ⟨(src.x1, src.y1), (dst.x1, dst.y1), (src.width, src.height)⟩
  else none

/-- A uniform buffer (struct UniformBuffer, mod.rs lines 650-654):
per-element byte size and element count; the GPU handle is elided. -/
structure UniformBuffer where
  size : Nat
  count : Nat
deriving DecidableEq, Repr

/-- A sampler (struct Sampler, mod.rs lines 953-955); the opaque wgpu
handle is represented by an id. -/
structure Sampler where
  id : Nat
deriving DecidableEq, Repr

/-- A wgpu binding resource, covering the variants produced by the Bind
implementations: a buffer with a byte range 0..size, a texture view, or a
sampler. -/
inductive BindRes where
  | bufferRange (size : Nat)
  | textureView (view : Nat)
  | samplerRes (id : Nat)
deriving DecidableEq, Repr

/-- A wgpu::Binding: a slot index together with the bound resource. -/
structure WgpuBinding where
  binding : Nat
  resource : BindRes
deriving DecidableEq, Repr

/-- The closed set of resource types implementing the Bind trait in the
source: UniformBuffer (lines 656-666), Framebuffer (lines 691-698),
Texture (lines 911-918), and Sampler (lines 957-964). -/
inductive Bindable where
  | uniformBuf (u : UniformBuffer)
  | tex (t : Texture)
  | fb (f : Framebuffer)
  | sampler (s : Sampler)
deriving DecidableEq, Repr

/-- Bind::binding for each implementation: every implementation sets the
binding field to the given index and supplies its own resource. -/
def Bindable.binding : Bindable → Nat → WgpuBinding
  | .uniformBuf u, index => ⟨index, .bufferRange u.size⟩
  | .tex t, index => ⟨index, .textureView t.view⟩
  | .fb f, index => ⟨index, .textureView f.texture.view⟩
  | .sampler s, index => ⟨index, .samplerRes s.id⟩

/-- The layout of a BindingGroup (struct BindingGroupLayout, mod.rs lines
624-628): declared slot count and set index; the wgpu layout handle is
elided. -/
structure BindingGroupLayout where
  size : Nat
  set_index : Nat
deriving DecidableEq, Repr

/-- A group of bindings (struct BindingGroup, mod.rs lines 612-615). The
wgpu BindGroup is represented by the ordered binding list passed to
wgpu create_bind_group at creation. -/
structure BindingGroup where
  set_index : Nat
  bindings : List WgpuBinding
deriving DecidableEq, Repr

/-- Device::create_binding_group (mod.rs lines 1730-1754): asserts
binds.len() == layout.size (fatal on mismatch, modelled as none), then
binds each resource at its enumeration index cast to u32 (i as u32, a
truncation modulo 2^32) and carries the set index of the layout. -/
def Device.createBindingGroup (layout : BindingGroupLayout)
    (binds : List Bindable) : Option BindingGroup :=
  if binds.length = layout.size then
    some ⟨layout.set_index, binds.enum.map fun ib => ib.2.binding (ib.1 % u32size)⟩
  else none

/-- Renderer::binding_group (mod.rs lines 1473-1475): delegates to
Device::create_binding_group. -/
def Renderer.bindingGroup (layout : BindingGroupLayout)
    (binds : List Bindable) : Option BindingGroup :=
  Device.createBindingGroup layout binds

/-- A vertex buffer (struct VertexBuffer, mod.rs lines 985-988): records
an element count; the GPU buffer handle is elided. -/
structure VertexBuffer where
  size : Nat
deriving DecidableEq, Repr

/-- Device::create_buffer (mod.rs lines 1756-1767): copies the vertex
slice into a GPU buffer and records size = vertices.len() as u32
(truncating cast modulo 2^32). -/
def Device.createBuffer {V : Type} (vertices : List V) : VertexBuffer :=
  ⟨vertices.length % u32size⟩

/-- Renderer::vertex_buffer (mod.rs lines 1459-1464): delegates to
Device::create_buffer. -/
def Renderer.vertexBuffer {V : Type} (verts : List V) : VertexBuffer :=
  Device.createBuffer verts

/-- One command recorded into a render pass by the Pass methods
(mod.rs lines 1283-1338). Ranges a..b are recorded as their two bounds. -/
inductive PassCmd where
  | setBindGroup (setIndex : Nat) (offsets : List Nat)
  | setIndexBuf
  | setVertexBuf (slot : Nat) (bufSize : Nat) (offset : Nat)
  | draw (vertexStart vertexStop instStart instStop : Nat)
  | drawIndexed (idxStart idxStop baseVertex instStart instStop : Nat)
deriving DecidableEq, Repr

/-- A render pass, modelled as the sequence of commands recorded on the
underlying wgpu::RenderPass (struct Pass, mod.rs lines 1283-1285). -/
structure Pass where
  cmds : List PassCmd
deriving DecidableEq, Repr

/-- Pass::set_binding (mod.rs lines 1314-1317): records set_bind_group
with the set index of the group and the dynamic offsets. -/
def Pass.setBinding (p : Pass) (group : BindingGroup) (offsets : List Nat) :
    Pass :=
  ⟨p.cmds ++ [.setBindGroup group.set_index offsets]⟩

/-- Pass::set_vertex_buffer (mod.rs lines 1321-1323): records the buffer
at slot 0 with offset 0. -/
def Pass.setVertexBuffer (p : Pass) (vertexBuf : VertexBuffer) : Pass :=
  ⟨p.cmds ++ [.setVertexBuf 0 vertexBuf.size 0]⟩

/-- Pass::draw_buffer (mod.rs lines 1327-1330): binds the buffer, then
draws vertex range 0..buf.size with instance range 0..1. -/
def Pass.drawBuffer (p : Pass) (buf : VertexBuffer) : Pass :=
  ⟨(p.setVertexBuffer buf).cmds ++ [.draw 0 buf.size 0 1]⟩

/-- Pass::draw_buffer_range (mod.rs lines 1331-1334): binds the buffer,
then draws the given vertex range with instance range 0..1. -/
def Pass.drawBufferRange (p : Pass) (buf : VertexBuffer)
    (rangeStart rangeStop : Nat) : Pass :=
  ⟨(p.setVertexBuffer buf).cmds ++ [.draw rangeStart rangeStop 0 1]⟩

/-- The Draw trait implementation for VertexBuffer (mod.rs lines 990-1001):
set the binding group, then draw the whole buffer. -/
def VertexBuffer.draw (buf : VertexBuffer) (binding : BindingGroup)
    (p : Pass) : Pass :=
  (p.setBinding binding []).drawBuffer buf

/-- Per-attribute vertex formats (enum VertexFormat, mod.rs lines
1008-1014). -/
inductive VertexFormat where
  | float
  | float2
  | float3
  | float4
  | ubyte4
deriving DecidableEq, Repr

/-- VertexFormat::bytesize (mod.rs lines 1018-1026). -/
def VertexFormat.bytesize : VertexFormat → Nat
  | .float => 4
  | .float2 => 8
  | .float3 => 12
  | .float4 => 16
  | .ubyte4 => 4

/-- The wgpu vertex formats targeted by VertexFormat::to_wgpu
(mod.rs lines 1028-1036). -/
inductive WgpuVertexFormat where
  | float
  | float2
  | float3
  | float4
  | uchar4Norm
deriving DecidableEq, Repr

/-- VertexFormat::to_wgpu (mod.rs lines 1028-1036). -/
def VertexFormat.toWgpu : VertexFormat → WgpuVertexFormat
  | .float => .float
  | .float2 => .float2
  | .float3 => .float3
  | .float4 => .float4
  | .ubyte4 => .uchar4Norm

/-- A wgpu::VertexAttributeDescriptor as pushed by VertexLayout::from:
shader location (u32), byte offset, and format. -/
structure WgpuVertexAttr where
  shader_location : Nat
  offset : Nat
  format : WgpuVertexFormat
deriving DecidableEq, Repr

/-- Describes a VertexBuffer layout (struct VertexLayout, mod.rs lines
1040-1044): attribute descriptors plus the accumulated byte size, used as
the stride. -/
structure VertexLayout where
  wgpu_attrs : List WgpuVertexAttr
  size : Nat
deriving DecidableEq, Repr

/-- One iteration of the loop in VertexLayout::from (mod.rs lines
1046-1058): push an attribute whose shader location is the current
attribute count cast to u32 and whose offset is the accumulated size,
then add the byte size of the format. -/
def VertexLayout.pushStep (vl : VertexLayout) (vf : VertexFormat) :
    VertexLayout :=
  ⟨vl.wgpu_attrs ++ [⟨vl.wgpu_attrs.length % u32size, vl.size, vf.toWgpu⟩],
    vl.size + vf.bytesize⟩

/-- VertexLayout::from (mod.rs lines 1046-1058): fold the loop body over
the format list starting from the default (empty) layout. -/
def VertexLayout.ofFormats (formats : List VertexFormat) : VertexLayout :=
  formats.foldl VertexLayout.pushStep ⟨[], 0⟩

/-- The value of an ASCII byte as a base-16 digit, as accepted by the Rust
standard library when parsing with radix 16: the decimal digits 48-57,
the lowercase letters 97-102, and the uppercase letters 65-70. -/
def hexDigitVal (b : Nat) : Option Nat :=
  if 48 ≤ b ∧ b ≤ 57 then some (b - 48)
  else if 97 ≤ b ∧ b ≤ 102 then some (b - 87)
  else if 65 ≤ b ∧ b ≤ 70 then some (b - 55)
  else none

/-- One step of the digit loop of u8::from_str_radix with radix 16:
reject an invalid digit, multiply the accumulator by 16, add the digit,
and reject on overflow of the u8 range. -/
def parseHexStep (acc : Option Nat) (b : Nat) : Option Nat :=
  match acc with
  | none => none
  | some v =>
    match hexDigitVal b with
    | none => none
    | some d => if v * 16 + d < 256 then some (v * 16 + d) else none

/-- The digit loop of u8::from_str_radix with radix 16: an empty digit
sequence is an error, otherwise fold the digits left to right. -/
def parseHexDigits (s : List Nat) : Option Nat :=
  if s.isEmpty then none else s.foldl parseHexStep (some 0)

/-- u8::from_str_radix with radix 16, on the UTF-8 bytes of the input.
Modelled from the documented behaviour of the Rust standard library on a
u8 target: an optional leading plus sign (byte 43) is skipped; a leading
minus sign (byte 45) succeeds, with value 0, only when followed by a
nonempty run of zero digits (byte 48), since any positive digit underflows
the unsigned subtraction; otherwise the bytes must be a nonempty sequence
of base-16 digits whose value fits in a u8. -/
def u8FromStrRadix16 : List Nat → Option Nat
  | [] => none
  | b :: rest =>
    if b = 45 then
      if rest ≠ [] ∧ rest.all (fun c => c == 48) then some 0 else none
    else if b = 43 then parseHexDigits rest
    else parseHexDigits (b :: rest)

/-- Rgba8::from_str (mod.rs lines 96-109), on the UTF-8 bytes of the
input. The source slices bytes 1..3, 3..5 and 5..7 of the string and
parses each pair with u8::from_str_radix(.., 16), propagating the first
error; the alpha channel is always 0xff. A byte length below 7 makes the
slicing panic; panics and parse errors are both modelled as none. -/
def Rgba8.fromStr (hex_code : List Nat) : Option Rgba8 :=
  if 7 ≤ hex_code.length then
    match u8FromStrRadix16 ((hex_code.drop 1).take 2) with
    | none => none
    | some r =>
      match u8FromStrRadix16 ((hex_code.drop 3).take 2) with
      | none => none
      | some g =>
        match u8FromStrRadix16 ((hex_code.drop 5).take 2) with
        | none => none
        | some b => some ⟨r, g, b, 255⟩
  else none

/-!
Theorems for the claims.
-/

/-- C9: converting between the RGBA and BGRA 8-bit color types is an exact
involutive channel permutation: both round trips are the identity and each
of the r, g, b, a channels is preserved unchanged in both directions. -/
theorem c9_bgra8_rgba8_roundtrip :
    (∀ c : Rgba8,
      Bgra8.intoRgba8 (Bgra8.fromRgba8 c) = c ∧
      (Bgra8.fromRgba8 c).r = c.r ∧ (Bgra8.fromRgba8 c).g = c.g ∧
      (Bgra8.fromRgba8 c).b = c.b ∧ (Bgra8.fromRgba8 c).a = c.a) ∧
    (∀ d : Bgra8,
      Bgra8.fromRgba8 (Bgra8.intoRgba8 d) = d ∧
      (Bgra8.intoRgba8 d).r = d.r ∧ (Bgra8.intoRgba8 d).g = d.g ∧
      (Bgra8.intoRgba8 d).b = d.b ∧ (Bgra8.intoRgba8 d).a = d.a) :=
  ⟨fun c => ⟨rfl, rfl, rfl, rfl, rfl⟩, fun d => ⟨rfl, rfl, rfl, rfl, rfl⟩⟩

/-- Rect::width computes the absolute value of the coordinate difference. -/
theorem Rect.width_eq_abs {α : Type} [LinearOrderedAddCommGroup α]
    (r : Rect α) : r.width = |r.x2 - r.x1| := by
  rw [Rect.width]
  split
  · exact (abs_of_neg (by assumption)).symm
  · exact (abs_of_nonneg (not_lt.mp (by assumption))).symm

/-- C8: normalized is idempotent, and the width of the normalized
rectangle equals the absolute value of the width of the original, which is
the width itself since width is an absolute difference of x coordinates. -/
theorem c8_normalized_idempotent {α : Type} [LinearOrderedAddCommGroup α]
    (r : Rect α) :
    r.normalized.normalized = r.normalized ∧
    r.normalized.width = |r.width| ∧ |r.width| = r.width := by
  refine ⟨?_, ?_, ?_⟩
  · simp only [Rect.normalized, Rect.mk.injEq]
    exact ⟨min_eq_left min_le_max, min_eq_left min_le_max,
      max_eq_right min_le_max, max_eq_right min_le_max⟩
  · rw [Rect.width_eq_abs, Rect.width_eq_abs, Rect.normalized, abs_abs]
    simp only
    rw [max_sub_min_eq_abs, abs_sub_comm, abs_abs]
  · rw [Rect.width_eq_abs, abs_abs]

/-- C7: for rectangles with non-negative extents, clamping confines the
rectangle inside the bounds (both coordinatewise and in the sense that
every point it contains is contained in the bounds), and clamping a
rectangle already inside the bounds leaves it unchanged. -/
theorem c7_clamped_inside {α : Type} [LinearOrder α] (r b : Rect α)
    (hrx : r.x1 ≤ r.x2) (hry : r.y1 ≤ r.y2)
    (hbx : b.x1 ≤ b.x2) (hby : b.y1 ≤ b.y2) :
    (b.x1 ≤ (r.clamped b).x1 ∧ (r.clamped b).x2 ≤ b.x2 ∧
      b.y1 ≤ (r.clamped b).y1 ∧ (r.clamped b).y2 ≤ b.y2) ∧
    (∀ p : Point2 α, (r.clamped b).contains p → b.contains p) ∧
    (b.x1 ≤ r.x1 → r.x2 ≤ b.x2 → b.y1 ≤ r.y1 → r.y2 ≤ b.y2 →
      r.clamped b = r) := by
  refine ⟨⟨le_max_right _ _, min_le_right _ _, le_max_right _ _,
    min_le_right _ _⟩, ?_, ?_⟩
  · rintro p ⟨h1, h2, h3, h4⟩
    exact ⟨le_trans (le_max_right _ _) h1, le_trans h2 (min_le_right _ _),
      le_trans (le_max_right _ _) h3, le_trans h4 (min_le_right _ _)⟩
  · intro h1 h2 h3 h4
    obtain ⟨a1, c1, a2, c2⟩ := r
    simp only [Rect.clamped, Rect.mk.injEq]
    exact ⟨max_eq_left h1, max_eq_left h3, min_eq_left h2, min_eq_left h4⟩

/-- Witness for C7 at a concrete instance over Int. -/
theorem c7_clamped_inside_witness :
    (Rect.mk (1 : Int) 1 2 2).clamped (Rect.mk 0 0 3 3) = Rect.mk 1 1 2 2 :=
  (c7_clamped_inside (Rect.mk (1 : Int) 1 2 2) (Rect.mk 0 0 3 3)
    (by decide) (by decide) (by decide) (by decide)).2.2
    (by decide) (by decide) (by decide) (by decide)

/-- C4: a blit proceeds exactly when the source and destination rectangles
have equal width and equal height; in particular a 10 by 10 source with a
10 by 12 destination fails fatally. -/
theorem c4_blit_same_size :
    (∀ {α : Type} [LinearOrder α] [Sub α] [Neg α] [Zero α]
      (t : Texture) (src dst : Rect α),
      (t.blit src dst).isSome ↔
        (src.width = dst.width ∧ src.height = dst.height)) ∧
    Texture.blit ⟨16, 16, 0⟩ (Rect.mk (0 : Int) 0 10 10)
      (Rect.mk 0 0 10 12) = none := by
  constructor
  · intro α _ _ _ _ t src dst
    rw [Texture.blit]
    split_ifs with hc <;> simp [hc]
  · decide

/-- Witness for C4: an equal-size blit over Int is accepted. -/
theorem c4_blit_same_size_witness :
    (Texture.blit ⟨16, 16, 0⟩ (Rect.mk (0 : Int) 0 10 10)
      (Rect.mk 2 2 12 12)).isSome :=
  (c4_blit_same_size.1 ⟨16, 16, 0⟩ (Rect.mk (0 : Int) 0 10 10)
    (Rect.mk 2 2 12 12)).mpr (by decide)

/-- C2 (amended): Texture::fill succeeds exactly when the byte length is
congruent to 4*w*h modulo 2^32, because the source truncates the usize
length with an `as u32` cast before comparing; for byte buffers shorter
than 2^32 the check is exact equality with 4*w*h. -/
theorem c2_fill_length (t : Texture) (texels : List Nat)
    (hw : t.w * t.h * 4 < u32size) :
    ((Texture.fill t texels).isSome ↔
      texels.length % u32size = t.w * t.h * 4) ∧
    (texels.length < u32size →
      ((Texture.fill t texels).isSome ↔ texels.length = t.w * t.h * 4)) := by
  have hrw : (t.w * t.h * 4) % u32size = t.w * t.h * 4 := Nat.mod_eq_of_lt hw
  constructor
  · rw [Texture.fill, hrw]
    split_ifs with hc <;> simp [hc]
  · intro hl
    have h2 : texels.length % u32size = texels.length := Nat.mod_eq_of_lt hl
    rw [Texture.fill, hrw, h2]
    split_ifs with hc <;> simp [hc]

/-- Witness for C2: on a 4 by 4 texture, filling with 64 bytes succeeds
and filling with 60 or 68 bytes fails. -/
theorem c2_fill_length_witness :
    (Texture.fill ⟨4, 4, 0⟩ (List.replicate 64 0)).isSome ∧
    ¬(Texture.fill ⟨4, 4, 0⟩ (List.replicate 60 0)).isSome ∧
    ¬(Texture.fill ⟨4, 4, 0⟩ (List.replicate 68 0)).isSome := by
  refine ⟨?_, ?_, ?_⟩
  · exact ((c2_fill_length ⟨4, 4, 0⟩ (List.replicate 64 0)
      (by norm_num [u32size])).2 (by simp [u32size])).mpr (by simp)
  · intro hs
    have h := ((c2_fill_length ⟨4, 4, 0⟩ (List.replicate 60 0)
      (by norm_num [u32size])).2 (by simp [u32size])).mp hs
    simp at h
  · intro hs
    have h := ((c2_fill_length ⟨4, 4, 0⟩ (List.replicate 68 0)
      (by norm_num [u32size])).2 (by simp [u32size])).mp hs
    simp at h

/-- Counterexample to C2 as stated: on a 4 by 4 texture, a buffer of
2^32 + 64 bytes is accepted by Texture::fill (the truncating cast reduces
its length to 64), although its length is not 4*4*4. -/
theorem c2_fill_counterexample :
    (Texture.fill ⟨4, 4, 0⟩ (List.replicate (u32size + 64) 0)).isSome ∧
    u32size + 64 ≠ 4 * 4 * 4 := by
  constructor
  · have hc : (List.replicate (u32size + 64) (0 : Nat)).length % u32size =
        ((Texture.mk 4 4 0).w * (Texture.mk 4 4 0).h * 4) % u32size := by
      rw [List.length_replicate]; decide
    rw [Texture.fill, if_pos hc]
    rfl
  · decide

/-- C3 (amended): Texture::transfer is accepted exactly when the truncated
integer division of the byte length by 4 equals src_w * src_h and the
destination footprint fits in the texture; because the division truncates,
byte lengths from 4*src_w*src_h up to 4*src_w*src_h + 3 are all accepted,
so a length that is not an exact multiple of 4 is not rejected. Stated
here for values below the u32 truncation threshold. -/
theorem c3_transfer_region (t : Texture) (texels : List Nat)
    (width height transferW transferH : Nat)
    (hl : texels.length < u32size) (hs : width * height < u32size)
    (hd : transferW * transferH < u32size) (ht : t.w * t.h < u32size) :
    (Texture.transfer t texels width height transferW transferH).isSome ↔
      (4 * (width * height) ≤ texels.length ∧
        texels.length < 4 * (width * height) + 4 ∧
        transferW * transferH ≤ t.w * t.h) := by
  rw [Texture.transfer, Nat.mod_eq_of_lt hl, Nat.mod_eq_of_lt hs,
    Nat.mod_eq_of_lt hd, Nat.mod_eq_of_lt ht]
  generalize texels.length = L
  generalize width * height = m
  generalize transferW * transferH = f
  generalize t.w * t.h = s
  split_ifs with hc
  · simp only [Option.isSome_some, true_iff]
    obtain ⟨h1, h2⟩ := hc
    omega
  · simp only [Option.isSome_none, Bool.false_eq_true, false_iff]
    rintro ⟨h1, h2, h3⟩
    exact hc ⟨by omega, h3⟩

/-- Witness for C3: a 16-byte buffer for a 2 by 2 source region onto a
2 by 2 texture is accepted. -/
theorem c3_transfer_region_witness :
    (Texture.transfer ⟨2, 2, 0⟩ (List.replicate 16 0) 2 2 2 2).isSome :=
  (c3_transfer_region ⟨2, 2, 0⟩ (List.replicate 16 0) 2 2 2 2
    (by simp [u32size]) (by norm_num [u32size]) (by norm_num [u32size])
    (by norm_num [u32size])).mpr (by simp)

/-- Counterexample to C3 as stated: a 5-byte source buffer for a 1 by 1
region is accepted by Texture::transfer, although 5 is not a multiple of 4
and differs from 4 * (1*1): the source divides the length by 4 with
truncation instead of requiring an exact multiple. -/
theorem c3_transfer_counterexample :
    Texture.transfer ⟨1, 1, 0⟩ [0, 0, 0, 0, 0] 1 1 1 1 =
      some ⟨4, 1, 1, 1⟩ ∧ (5 : Nat) % 4 ≠ 0 ∧ (5 : Nat) ≠ 4 * (1 * 1) := by
  refine ⟨by decide, by decide, by decide⟩

/-- The binding list built by Device::create_binding_group, read at a
position below the length of the resource list. -/
theorem bindings_getD (binds : List Bindable) (i : Nat)
    (h : i < binds.length) (d : WgpuBinding) :
    ((binds.enum.map fun ib => ib.2.binding (ib.1 % u32size)).getD i d) =
      (binds.get ⟨i, h⟩).binding (i % u32size) := by
  have hlen :
      (binds.enum.map fun ib => ib.2.binding (ib.1 % u32size)).length =
        binds.length := by
    simp
  rw [List.getD_eq_getElem _ _ (by rw [hlen]; exact h)]
  simp [List.getElem_enum]

/-- C1 (amended): creating a binding group fails fatally exactly when the
resource count differs from the declared slot count of the layout; on
success the group carries the set_index of the layout and the resource at
position i is bound at index i mod 2^32 (equal to i for every position
below 2^32, since the source casts the enumeration index with i as u32).
Renderer::binding_group delegates to Device::create_binding_group. -/
theorem c1_create_binding_group (layout : BindingGroupLayout)
    (binds : List Bindable) :
    (Device.createBindingGroup layout binds = none ↔
      binds.length ≠ layout.size) ∧
    Renderer.bindingGroup layout binds =
      Device.createBindingGroup layout binds ∧
    ∀ g, Device.createBindingGroup layout binds = some g →
      g.set_index = layout.set_index ∧
      g.bindings.length = binds.length ∧
      ∀ i (h : i < binds.length) (d : WgpuBinding),
        g.bindings.getD i d = (binds.get ⟨i, h⟩).binding (i % u32size) := by
  refine ⟨?_, rfl, ?_⟩
  · rw [Device.createBindingGroup]
    split_ifs with hc <;> simp [hc]
  · intro g hg
    rw [Device.createBindingGroup] at hg
    split_ifs at hg with hc
    cases hg
    refine ⟨rfl, by simp, ?_⟩
    intro i h d
    exact bindings_getD binds i h d

/-- Witness for C1 at a layout of size 2 with a texture and a sampler. -/
theorem c1_create_binding_group_witness :
    (BindingGroup.mk 7 [⟨0, BindRes.textureView 3⟩,
        ⟨1, BindRes.samplerRes 5⟩]).set_index = 7 ∧
    (BindingGroup.mk 7 [⟨0, BindRes.textureView 3⟩,
        ⟨1, BindRes.samplerRes 5⟩]).bindings.getD 1 ⟨9, BindRes.samplerRes 9⟩ =
      (Bindable.sampler ⟨5⟩).binding (1 % u32size) := by
  have h := (c1_create_binding_group ⟨2, 7⟩
      [Bindable.tex ⟨8, 8, 3⟩, Bindable.sampler ⟨5⟩]).2.2
      (BindingGroup.mk 7 [⟨0, BindRes.textureView 3⟩,
        ⟨1, BindRes.samplerRes 5⟩]) (by decide)
  exact ⟨h.1, h.2.2 1 (by decide) ⟨9, BindRes.samplerRes 9⟩⟩

/-- Counterexample to C1 as stated: with 2^32 + 1 resources (and a layout
declaring 2^32 + 1 slots) creation succeeds, but the resource at position
2^32 is bound at index 0, not at its position. -/
theorem c1_counterexample :
    ((Device.createBindingGroup ⟨u32size + 1, 0⟩
        (List.replicate (u32size + 1) (Bindable.sampler ⟨0⟩))).map
      fun g => (g.bindings.getD u32size ⟨9, BindRes.samplerRes 9⟩).binding) =
      some 0 ∧ u32size ≠ 0 := by
  constructor
  · rw [Device.createBindingGroup, if_pos (by rw [List.length_replicate])]
    simp only [Option.map_some']
    rw [bindings_getD _ u32size (by rw [List.length_replicate]; omega)]
    rw [List.get_replicate, Nat.mod_self]
    rfl
  · decide

/-- C5 (amended): a vertex buffer created from n vertices records
n mod 2^32 as its size (equal to n for all n below 2^32, since the source
stores vertices.len() as u32), and drawing it without an explicit range
records exactly the draw of vertex range 0..size with instance range 0..1,
both through Pass::draw_buffer directly and through the Draw trait, which
first activates the binding group. -/
theorem c5_draw_full_buffer {V : Type} (verts : List V)
    (g : BindingGroup) (p : Pass) :
    (Device.createBuffer verts).size = verts.length % u32size ∧
    (verts.length < u32size →
      (Device.createBuffer verts).size = verts.length) ∧
    Renderer.vertexBuffer verts = Device.createBuffer verts ∧
    (p.drawBuffer (Device.createBuffer verts)).cmds =
      p.cmds ++ [.setVertexBuf 0 (verts.length % u32size) 0,
        .draw 0 (verts.length % u32size) 0 1] ∧
    ((Device.createBuffer verts).draw g p).cmds =
      p.cmds ++ [.setBindGroup g.set_index [],
        .setVertexBuf 0 (verts.length % u32size) 0,
        .draw 0 (verts.length % u32size) 0 1] := by
  refine ⟨rfl, fun h => ?_, rfl, ?_, ?_⟩
  · rw [Device.createBuffer]
    show verts.length % u32size = verts.length
    exact Nat.mod_eq_of_lt h
  · simp [Pass.drawBuffer, Pass.setVertexBuffer, Device.createBuffer]
  · simp [VertexBuffer.draw, Pass.drawBuffer, Pass.setVertexBuffer,
      Pass.setBinding, Device.createBuffer]

/-- Witness for C5 with the six-vertex scenario of the spec. -/
theorem c5_draw_full_buffer_witness :
    (Device.createBuffer (List.replicate 6 (0 : Nat))).size = 6 ∧
    ((Pass.mk []).drawBuffer
        (Device.createBuffer (List.replicate 6 (0 : Nat)))).cmds =
      [.setVertexBuf 0 6 0, .draw 0 6 0 1] := by
  have h := c5_draw_full_buffer (List.replicate 6 (0 : Nat))
    (BindingGroup.mk 0 []) (Pass.mk [])
  constructor
  · have h6 := h.2.1 (by simp [u32size])
    simpa using h6
  · have hd := h.2.2.2.1
    simpa [u32size] using hd

/-- Counterexample to C5 as stated: a vertex buffer created from a slice
of 2^32 (zero-sized) vertices records size 0, not 2^32, because the
source truncates the length with vertices.len() as u32. -/
theorem c5_counterexample :
    (Device.createBuffer (List.replicate u32size ())).size = 0 ∧
    u32size ≠ 0 := by
  constructor
  · rw [Device.createBuffer, List.length_replicate, Nat.mod_self]
  · decide

/-- The attribute descriptors pushed by the loop of VertexLayout::from
when the layout already holds loc attributes and off accumulated bytes. -/
def attrsFrom (loc off : Nat) : List VertexFormat → List WgpuVertexAttr
  | [] => []
  | vf :: rest =>
    ⟨loc % u32size, off, vf.toWgpu⟩ :: attrsFrom (loc + 1) (off + vf.bytesize) rest

/-- Closed form of the fold in VertexLayout::from. -/
theorem foldl_pushStep (fs : List VertexFormat) (vl : VertexLayout) :
    List.foldl VertexLayout.pushStep vl fs =
      ⟨vl.wgpu_attrs ++ attrsFrom vl.wgpu_attrs.length vl.size fs,
        vl.size + (fs.map VertexFormat.bytesize).sum⟩ := by
  induction fs generalizing vl with
  | nil => simp [attrsFrom]
  | cons f fs ih =>
    rw [List.foldl_cons, ih]
    simp [VertexLayout.pushStep, attrsFrom, Nat.add_assoc]

/-- attrsFrom has one attribute per format. -/
theorem attrsFrom_length (fs : List VertexFormat) (loc off : Nat) :
    (attrsFrom loc off fs).length = fs.length := by
  induction fs generalizing loc off with
  | nil => simp [attrsFrom]
  | cons f fs ih => simp [attrsFrom, ih]

/-- The attribute at position i produced by attrsFrom. -/
theorem attrsFrom_getD (fs : List VertexFormat) (loc off i : Nat)
    (h : i < fs.length) (d : WgpuVertexAttr) :
    (attrsFrom loc off fs).getD i d =
      ⟨(loc + i) % u32size,
        off + ((fs.take i).map VertexFormat.bytesize).sum,
        (fs.getD i .float).toWgpu⟩ := by
  induction fs generalizing loc off i with
  | nil => simp at h
  | cons f fs ih =>
    cases i with
    | zero => simp [attrsFrom]
    | succ i =>
      show (attrsFrom (loc + 1) (off + f.bytesize) fs).getD i d = _
      rw [ih (loc + 1) (off + f.bytesize) i (by simpa using h)]
      have h1 : loc + 1 + i = loc + (i + 1) := by omega
      rw [h1]
      simp [List.take_succ_cons, List.getD_cons_succ, Nat.add_assoc]

/-- The attribute list built by VertexLayout::from. -/
theorem ofFormats_attrs (formats : List VertexFormat) :
    (VertexLayout.ofFormats formats).wgpu_attrs = attrsFrom 0 0 formats := by
  rw [VertexLayout.ofFormats, foldl_pushStep]
  simp

/-- The accumulated size built by VertexLayout::from. -/
theorem ofFormats_size (formats : List VertexFormat) :
    (VertexLayout.ofFormats formats).size =
      (formats.map VertexFormat.bytesize).sum := by
  rw [VertexLayout.ofFormats, foldl_pushStep]
  simp

/-- C6 (amended): VertexLayout::from assigns attribute i the shader
location i mod 2^32 (equal to i for the first 2^32 attributes, since the
source casts the attribute count with as u32), the byte offset equal to
the sum of the byte sizes of all preceding formats, and a total stride
equal to the sum of all byte sizes, with Float = 4, Float2 = 8,
Float3 = 12, Float4 = 16 and UByte4 = 4 bytes. -/
theorem c6_vertex_layout (formats : List VertexFormat) (i : Nat)
    (h : i < formats.length) (d : WgpuVertexAttr) :
    (VertexLayout.ofFormats formats).wgpu_attrs.length = formats.length ∧
    (VertexLayout.ofFormats formats).size =
      (formats.map VertexFormat.bytesize).sum ∧
    ((VertexLayout.ofFormats formats).wgpu_attrs.getD i d).shader_location =
      i % u32size ∧
    (i < u32size →
      ((VertexLayout.ofFormats formats).wgpu_attrs.getD i d).shader_location
        = i) ∧
    ((VertexLayout.ofFormats formats).wgpu_attrs.getD i d).offset =
      ((formats.take i).map VertexFormat.bytesize).sum ∧
    ((VertexLayout.ofFormats formats).wgpu_attrs.getD i d).format =
      (formats.getD i .float).toWgpu ∧
    VertexFormat.float.bytesize = 4 ∧ VertexFormat.float2.bytesize = 8 ∧
    VertexFormat.float3.bytesize = 12 ∧ VertexFormat.float4.bytesize = 16 ∧
    VertexFormat.ubyte4.bytesize = 4 := by
  rw [ofFormats_attrs, ofFormats_size, attrsFrom_getD formats 0 0 i h d]
  refine ⟨attrsFrom_length formats 0 0, rfl, by simp,
    fun hi => by simp [Nat.mod_eq_of_lt hi], by simp, rfl,
    rfl, rfl, rfl, rfl, rfl⟩

/-- Witness for C6 on the format list [Float3, UByte4, Float2]. -/
theorem c6_vertex_layout_witness :
    ((VertexLayout.ofFormats [.float3, .ubyte4, .float2]).wgpu_attrs.getD 1
      ⟨9, 9, .float⟩).shader_location = 1 ∧
    ((VertexLayout.ofFormats [.float3, .ubyte4, .float2]).wgpu_attrs.getD 1
      ⟨9, 9, .float⟩).offset = 12 ∧
    (VertexLayout.ofFormats [.float3, .ubyte4, .float2]).size = 24 := by
  have h := c6_vertex_layout [.float3, .ubyte4, .float2] 1 (by decide)
    ⟨9, 9, .float⟩
  refine ⟨h.2.2.2.1 (by decide), ?_, ?_⟩
  · rw [h.2.2.2.2.1]; decide
  · rw [h.2.1]; decide

/-- Counterexample to C6 as stated: with 2^32 + 1 attributes, the
attribute at position 2^32 is assigned shader location 0, not 2^32. -/
theorem c6_counterexample :
    ((VertexLayout.ofFormats
        (List.replicate (u32size + 1) VertexFormat.float)).wgpu_attrs.getD
      u32size ⟨9, 9, .float⟩).shader_location = 0 ∧ u32size ≠ 0 := by
  constructor
  · rw [ofFormats_attrs, attrsFrom_getD _ 0 0 u32size
      (by rw [List.length_replicate]; omega) ⟨9, 9, .float⟩]
    simp [Nat.mod_self]
  · decide

/-- A byte accepted as a base-16 digit has value below 16 and is neither a
minus nor a plus sign. -/
theorem hexDigitVal_bounds (b v : Nat) (h : hexDigitVal b = some v) :
    v < 16 ∧ b ≠ 45 ∧ b ≠ 43 := by
  rw [hexDigitVal] at h
  split_ifs at h <;> simp_all <;> omega

/-- Parsing a two-digit pair with u8::from_str_radix(.., 16). -/
theorem u8FromStrRadix16_pair (d1 d2 v1 v2 : Nat)
    (h1 : hexDigitVal d1 = some v1) (h2 : hexDigitVal d2 = some v2) :
    u8FromStrRadix16 [d1, d2] = some (v1 * 16 + v2) := by
  obtain ⟨hv1, hne45, hne43⟩ := hexDigitVal_bounds d1 v1 h1
  obtain ⟨hv2, -, -⟩ := hexDigitVal_bounds d2 v2 h2
  rw [u8FromStrRadix16, if_neg hne45, if_neg hne43, parseHexDigits]
  rw [if_neg (by simp), List.foldl_cons, List.foldl_cons, List.foldl_nil]
  have e1 : parseHexStep (some 0) d1 = some v1 := by
    simp only [parseHexStep, h1]
    rw [if_pos (by omega)]
    congr 1
    omega
  have e2 : parseHexStep (some v1) d2 = some (v1 * 16 + v2) := by
    simp only [parseHexStep, h2]
    rw [if_pos (by omega)]
  rw [e1, e2]

/-- C10: for every byte string consisting of a hash byte, six hexadecimal
digit bytes, and arbitrary trailing bytes, Rgba8::from_str returns the
color parsed from the three two-digit pairs with alpha exactly 0xff (the
trailing bytes are ignored); moreover every successfully parsed color,
from any input at all, has alpha exactly 0xff. -/
theorem c10_from_str_hex (d1 d2 d3 d4 d5 d6 v1 v2 v3 v4 v5 v6 : Nat)
    (rest : List Nat)
    (h1 : hexDigitVal d1 = some v1) (h2 : hexDigitVal d2 = some v2)
    (h3 : hexDigitVal d3 = some v3) (h4 : hexDigitVal d4 = some v4)
    (h5 : hexDigitVal d5 = some v5) (h6 : hexDigitVal d6 = some v6) :
    Rgba8.fromStr (35 :: d1 :: d2 :: d3 :: d4 :: d5 :: d6 :: rest) =
      some ⟨v1 * 16 + v2, v3 * 16 + v4, v5 * 16 + v6, 255⟩ ∧
    (∀ (s : List Nat) (c : Rgba8), Rgba8.fromStr s = some c → c.a = 255) := by
  constructor
  · have e1 := u8FromStrRadix16_pair d1 d2 v1 v2 h1 h2
    have e2 := u8FromStrRadix16_pair d3 d4 v3 v4 h3 h4
    have e3 := u8FromStrRadix16_pair d5 d6 v5 v6 h5 h6
    rw [Rgba8.fromStr, if_pos (by simp)]
    show (match u8FromStrRadix16 [d1, d2] with
      | none => none
      | some r =>
        match u8FromStrRadix16 [d3, d4] with
        | none => none
        | some g =>
          match u8FromStrRadix16 [d5, d6] with
          | none => none
          | some b => some (Rgba8.mk r g b 255)) = _
    rw [e1, e2, e3]
  · intro s c h
    rw [Rgba8.fromStr] at h
    split_ifs at h
    split at h
    · exact absurd h (by simp)
    split at h
    · exact absurd h (by simp)
    split at h
    · exact absurd h (by simp)
    · rw [Option.some_inj] at h
      rw [← h]

/-- Witness for C10 on the bytes of the string hash-1aF0bC-bang: the
trailing byte 33 is ignored and the result is (26, 240, 188, 255). -/
theorem c10_from_str_hex_witness :
    Rgba8.fromStr [35, 49, 97, 70, 48, 98, 67, 33] =
      some ⟨26, 240, 188, 255⟩ :=
  (c10_from_str_hex 49 97 70 48 98 67 1 10 15 0 11 12 [33]
    (by decide) (by decide) (by decide) (by decide) (by decide)
    (by decide)).1

